import Mathlib

/-!
# Verification of `api/recommend.js`

A shallow embedding of the single-endpoint relocation-recommendation
handler in `api/recommend.js`, together with theorems settling the
specification claims about it.

Modelling conventions:
* JavaScript values are the inductive `JsValue` (JSON-style values;
  numbers are modelled as `Int`, which covers every numeric literal the
  program manipulates).
* `JSON.parse` is a runtime facility, not code of this repository; it is
  modelled as an oracle `parseJson : JsValue → Option JsValue` supplied as
  part of the `World`.  Its argument is the JavaScript value handed to
  `JSON.parse` (JS coerces that argument to a string first; the oracle
  absorbs the coercion), and `none` models a parse exception.
* The upstream `fetch` call is modelled by an `Upstream` outcome supplied
  in the `World`: the capability may be missing, the network call may
  reject, or an HTTP response with a status and a body text arrives.
* An uncaught JavaScript exception escaping the handler is modelled by
  `Outcome.threw`; a call of `res.status(s).json(b)` (with the optional
  preceding `res.setHeader('Allow', 'POST')`) by `Outcome.responded`.
* Strings are treated as sequences of characters (`String.indexOf` /
  `String.slice` act on code units in JS; on the strings this program
  manipulates the two views agree).
-/

namespace Recommend

/-- JavaScript/JSON values as manipulated by `api/recommend.js`. -/
inductive JsValue where
  | null
  | bool (b : Bool)
  | num (n : Int)
  | str (s : String)
  | arr (elems : List JsValue)
  | obj (fields : List (String × JsValue))

/-- JavaScript truthiness of a value (`undefined` is represented by
`Option.none` at use sites, so it does not appear here). -/
def truthy : JsValue → Bool
  | .null => false
  | .bool b => b
  | .num n => n != 0
  | .str s => !s.isEmpty
  | .arr _ => true
  | .obj _ => true

/-- Is the value JavaScript `null`? -/
def isNull : JsValue → Bool
  | .null => true
  | _ => false

/-- Property access `v.k` on a non-null value: objects yield the stored
field (first binding wins), every other value yields `undefined`
(modelled as `none`). -/
def jsGetField (v : JsValue) (k : String) : Option JsValue :=
  match v with
  | .obj fs => (fs.find? (fun p => p.1 == k)).map (fun p => p.2)
  | _ => none

/-- Index access `v[0]` on a non-null value: arrays yield the element,
strings yield the one-character string, objects yield the field named
`"0"`, everything else `undefined`. -/
def jsGetIndex0 : JsValue → Option JsValue
  | .arr xs => xs.get? 0
  | .str s => (s.toList.get? 0).map (fun c => .str ⟨[c]⟩)
  | .obj fs => (fs.find? (fun p => p.1 == "0")).map (fun p => p.2)
  | _ => none

/-- One step of an optional chain `x?.…`: `undefined` and `null`
short-circuit to `undefined`. -/
def optStep (v : Option JsValue) (f : JsValue → Option JsValue) : Option JsValue :=
  match v with
  | none => none
  | some .null => none
  | some x => f x

/-- `Object.keys(v).length` for a truthy `v`. -/
def jsKeysCount : JsValue → Nat
  | .obj fs => fs.length
  | .arr xs => xs.length
  | .str s => s.length
  | _ => 0

/-- Strict equality of a JavaScript value with a string literal
(`v === s`), as used by `Array.prototype.includes`. -/
def isStrEq (v : JsValue) (s : String) : Bool :=
  match v with
  | .str t => t == s
  | _ => false

/-- `xs.includes(s)` for an array `xs` and a string literal `s`. -/
def listHasStr (xs : List JsValue) (s : String) : Bool :=
  xs.any (fun v => isStrEq v s)

/-- Is `pat` a leading segment of `l`? -/
def charsPrefixOf : List Char → List Char → Bool
  | [], _ => true
  | _ :: _, [] => false
  | a :: as, b :: bs => a == b && charsPrefixOf as bs

/-- Does `l` contain `pat` as a contiguous segment? -/
def charsContain (pat : List Char) : List Char → Bool
  | [] => pat.isEmpty
  | c :: rest => charsPrefixOf pat (c :: rest) || charsContain pat rest

/-- `s.includes(pat)` for strings: substring containment. -/
def jsStrIncludes (s pat : String) : Bool :=
  charsContain pat.toList s.toList

/-- `s.trim()`: remove leading and trailing whitespace.  (Defined by
structural recursion over the character list so that it evaluates on
concrete inputs.) -/
def jsTrim (s : String) : String :=
  ⟨((s.toList.dropWhile Char.isWhitespace).reverse.dropWhile
      Char.isWhitespace).reverse⟩

/-! ## Credential resolution (`tryReadFileSync`, `getApiKey`) -/

/-- The three environment variables consulted by `getApiKey`.
`none` models an unset variable. -/
structure Env where
  OPENAI_API_KEY : Option String
  OPEN_AI_KEY : Option String
  OPEN_AI_KEY_FILE : Option String

/-- Read-only file system: `read p` is the raw contents of the file at
path `p`, or `none` when `fs.readFileSync` would throw (missing file,
permission denied, ...). -/
structure FileSys where
  read : String → Option String

/-- `tryReadFileSync(path)`: read the file, trim, return the trimmed
contents when non-empty; any exception or an empty trimmed result gives
`null` (modelled `none`). -/
def tryReadFileSync (fs : FileSys) (path : String) : Option String :=
  match fs.read path with
  | some s => if (jsTrim s).isEmpty then none else some (jsTrim s)
  | none => none

/-- One environment-variable step of `getApiKey`:
`if (v && v.trim()) return v.trim()`. -/
def envCandidate (v : Option String) : Option String :=
  match v with
  | some s => if !s.isEmpty && !(jsTrim s).isEmpty then some (jsTrim s) else none
  | none => none

/-- The `OPEN_AI_KEY_FILE` step of `getApiKey`:
`if (process.env.OPEN_AI_KEY_FILE) { const fromFile = tryReadFileSync(...);
if (fromFile) return fromFile; }` — the variable must be set and truthy
(non-empty). -/
def fileEnvCandidate (env : Env) (fs : FileSys) : Option String :=
  match env.OPEN_AI_KEY_FILE with
  | some p => if !p.isEmpty then tryReadFileSync fs p else none
  | none => none

/-- `getApiKey()`: the five-step credential fallback chain, first
non-empty match wins; `none` is the "not found" signal.  The function is
total: no step can raise. -/
def getApiKey (env : Env) (fs : FileSys) : Option String :=
  match envCandidate env.OPENAI_API_KEY with
  | some k => some k
  | none =>
    match envCandidate env.OPEN_AI_KEY with
    | some k => some k
    | none =>
      match fileEnvCandidate env fs with
      | some k => some k
      | none =>
        match tryReadFileSync fs "./OPEN_AI_KEY" with
        | some k => some k
        | none => tryReadFileSync fs "/run/secrets/OPEN_AI_KEY"

/-! ## Request environment and body parsing (`readJsonBody`) -/

/-- Outcome of accumulating the raw request stream: the full text, or a
stream error (`req.on('error', ...)`). -/
inductive StreamResult where
  | data (text : String)
  | errored

/-- Outcome of the (single) upstream `fetch` interaction:
* `noCapability`: `getFetch()` threw (no global fetch, import failed);
  the message is `String(err)` of the raised error.
* `networkFailure`: the `fetch` call itself rejected.
* `response status bodyText`: an HTTP response arrived; `bodyText` is
  what `resp.text()` / the raw body would yield. -/
inductive Upstream where
  | noCapability (msg : String)
  | networkFailure (msg : String)
  | response (status : Nat) (bodyText : String)

/-- An incoming request: the HTTP method, the transport's pre-parsed
`req.body` (if any), and the raw stream contents. -/
structure Request where
  method : String
  preBody : Option JsValue
  stream : StreamResult

/-- Everything ambient the handler interacts with: environment
variables, the file system, the `JSON.parse` oracle, the upstream fetch
outcome, and the `String(err)` text of an engine-raised error (used only
inside a 500 body, e.g. when `resp.json()` throws). -/
structure World where
  env : Env
  fileSys : FileSys
  parseJson : JsValue → Option JsValue
  upstream : Upstream
  engineErrMsg : String

/-- The guard `req.body && Object.keys(req.body).length`. -/
def preBodyUsable : Option JsValue → Bool
  | some b => truthy b && jsKeysCount b != 0
  | none => false

/-- `readJsonBody(req)`: use a truthy pre-parsed body with keys when
present; otherwise accumulate the stream and `JSON.parse(d || '{}')`,
resolving `{}` on a parse failure or a stream error.  (`JSON.parse` on
the literal text `'{}'` yields the empty object.) -/
def readJsonBody (pj : JsValue → Option JsValue) (preBody : Option JsValue)
    (stream : StreamResult) : JsValue :=
  if preBodyUsable preBody then preBody.getD (.obj [])
  else
    match stream with
    | .errored => .obj []
    | .data d =>
      if d.isEmpty then .obj []
      else
        match pj (.str d) with
        | some v => v
        | none => .obj []

/-! ## The deterministic fallback path -/

/-- `body.answers || {}` (only evaluated on a non-null `body`). -/
def answersOf (body : JsValue) : JsValue :=
  match jsGetField body "answers" with
  | some v => if truthy v then v else .obj []
  | none => .obj []

/-- `Array.isArray(answers.destinations) ? answers.destinations :
(answers.destinations ? [answers.destinations] : [])`. -/
def destsOf (answers : JsValue) : List JsValue :=
  match jsGetField answers "destinations" with
  | some (.arr xs) => xs
  | some v => if truthy v then [v] else []
  | none => []

/-- `answers.relocationType || ''`. -/
def relocationOf (answers : JsValue) : JsValue :=
  match jsGetField answers "relocationType" with
  | some v => if truthy v then v else .str ""
  | none => .str ""

/-- `relocation && relocation.includes('work')`, with JavaScript method
semantics: a falsy value short-circuits to `false`; `includes` is
substring containment on strings and element membership on arrays; every
other truthy value lacks the method, so the call raises a `TypeError`
(modelled `none`). -/
def relocWork (v : JsValue) : Option Bool :=
  if truthy v then
    match v with
    | .str s => some (jsStrIncludes s "work")
    | .arr xs => some (xs.any (fun e => isStrEq e "work"))
    | _ => none
  else some false

/-- The fallback country pick (`let pick = 'Costa Rica'; if ... else if
... else if ...`); `none` models the uncaught `TypeError` from
`relocation.includes` on a truthy non-string non-array value. -/
def pickOf (answers : JsValue) : Option String :=
  if listHasStr (destsOf answers) "panama" then some "Panama"
  else if listHasStr (destsOf answers) "belize" then some "Belize"
  else
    match relocWork (relocationOf answers) with
    | some true => some "Panama"
    | some false => some "Costa Rica"
    | none => none

/-- First city of the fallback table (`'Main hub with services'`). -/
def hubCity (pick : String) : String :=
  if pick == "Costa Rica" then "San José"
  else if pick == "Panama" then "Panama City"
  else "Belize City"

/-- Second city of the fallback table (`'Popular expat/retirement spot'`). -/
def expatCity (pick : String) : String :=
  if pick == "Costa Rica" then "Guanacaste"
  else if pick == "Panama" then "Boquete"
  else "San Pedro"

/-- Third city of the fallback table (`'Leisure and nature options'`). -/
def natureCity (pick : String) : String :=
  if pick == "Costa Rica" then "La Fortuna"
  else if pick == "Panama" then "David"
  else "Caye Caulker"

/-- The literal fallback recommendation object built for `pick`. -/
def fallbackBody (pick : String) : JsValue :=
  .obj [
    ("country", .str pick),
    ("score", .num 75),
    ("reasons", .arr [
      .str ("Based on your selections, " ++ pick ++ " aligns best with your priorities."),
      .str "Good balance of lifestyle, services, and accessibility for your needs."]),
    ("cities", .arr [
      .obj [("name", .str (hubCity pick)), ("reason", .str "Main hub with services")],
      .obj [("name", .str (expatCity pick)), ("reason", .str "Popular expat/retirement spot")],
      .obj [("name", .str (natureCity pick)), ("reason", .str "Leisure and nature options")]])]

/-- What the handler ultimately does with one request: send exactly one
response (with an optional `Allow` header, set only on the 405 branch),
or let an exception escape. -/
inductive Outcome where
  | responded (status : Nat) (allowHeader : Option String) (body : JsValue)
  | threw

/-- The no-credential branch: respond 200 with the fallback object, or
propagate the `TypeError` from the decision rule. -/
def fallbackPath (answers : JsValue) : Outcome :=
  match pickOf answers with
  | some pick => .responded 200 none (fallbackBody pick)
  | none => .threw

/-! ## The upstream path -/

/-- `{error: 'Server error', message: String(err)}`. -/
def serverErrorBody (msg : String) : JsValue :=
  .obj [("error", .str "Server error"), ("message", .str msg)]

/-- `resp.ok` of the WHATWG fetch response: status in 200..299. -/
def fetchOk (status : Nat) : Bool :=
  200 ≤ status && status ≤ 299

/-- `j.choices?.[0]?.message?.content` on a non-null `j`: a plain field
access followed by three optional-chain steps. -/
def contentChain (j : JsValue) : Option JsValue :=
  optStep (optStep (optStep (jsGetField j "choices") jsGetIndex0)
    (fun v => jsGetField v "message")) (fun v => jsGetField v "content")

/-- `const assistant = j.choices?.[0]?.message?.content || ''` on a
non-null `j`. -/
def assistantOf (j : JsValue) : JsValue :=
  match contentChain j with
  | some v => if truthy v then v else .str ""
  | none => .str ""

/-- `assistant.indexOf('{')` / `assistant.slice(start)` for a string
assistant: the text from the first `\x7b` on, or the whole text when
there is none. -/
def sliceFromBrace (s : String) : String :=
  match s.toList.findIdx? (fun c => c == Char.ofNat 123) with
  | some i => ⟨s.toList.drop i⟩
  | none => s

/-- `assistant.indexOf('\x7b')` / `assistant.slice(start)` for an array
assistant: `indexOf` matches an element strictly equal to the one-brace
string, `slice` drops the elements before it. -/
def sliceArrFromBrace (xs : List JsValue) : JsValue :=
  match xs.findIdx? (fun e => isStrEq e "\x7b") with
  | some i => JsValue.arr (xs.drop i)
  | none => JsValue.arr xs

/-- The inner `try { ... JSON.parse ... } catch { 200 {text: assistant} }`
block, applied to the already-computed assistant value.
* string assistant: slice from the first brace (or keep all), parse;
  success responds 200 with the parsed value, failure is caught and
  responds 200 with `{text: assistant}`;
* array assistant: `indexOf`/`slice` exist on arrays (`'\x7b'` matched by
  strict equality), and `JSON.parse` coerces the sliced array to a
  string — the oracle receives that array value; a parse failure is
  caught the same way;
* any other truthy non-string value: `.indexOf` is not a function, the
  `TypeError` is caught by the same `catch`, responding 200 with
  `{text: assistant}`. -/
def recoverFromContent (pj : JsValue → Option JsValue) (assistant : JsValue) : Outcome :=
  match assistant with
  | .str s =>
    match pj (.str (sliceFromBrace s)) with
    | some parsed => .responded 200 none parsed
    | none => .responded 200 none (.obj [("text", .str s)])
  | .arr xs =>
    match pj (sliceArrFromBrace xs) with
    | some parsed => .responded 200 none parsed
    | none => .responded 200 none (.obj [("text", .arr xs)])
  | v => .responded 200 none (.obj [("text", v)])

/-- Steps 5–8 of the handler under the outer `try`/`catch`: acquire the
fetch capability, issue the upstream call, handle the upstream response.
A missing capability or a rejected call is caught by the outer `catch`
(500).  On a non-ok status respond 502 with the upstream status and body
text.  On an ok status, `resp.json()` parses the body: a parse exception
reaches the outer `catch` (500); so does the `TypeError` from
`j.choices` when the body parses to `null`.  Otherwise run the content
recovery. -/
def upstreamPath (w : World) : Outcome :=
  match w.upstream with
  | .noCapability msg => .responded 500 none (serverErrorBody msg)
  | .networkFailure msg => .responded 500 none (serverErrorBody msg)
  | .response status text =>
    if !fetchOk status then
      .responded 502 none (.obj [
        ("error", .str "OpenAI API error"),
        ("status", .num status),
        ("body", .str text)])
    else
      match w.parseJson (.str text) with
      | none => .responded 500 none (serverErrorBody w.engineErrMsg)
      | some j =>
        if isNull j then .responded 500 none (serverErrorBody w.engineErrMsg)
        else recoverFromContent w.parseJson (assistantOf j)

/-! ## The handler (`module.exports`) -/

/-- The 405 body. -/
def methodNotAllowedBody : JsValue :=
  .obj [("error", .str "Method not allowed. Use POST.")]

/-- The parsed request body the handler works with. -/
def bodyOf (w : World) (req : Request) : JsValue :=
  readJsonBody w.parseJson req.preBody req.stream

/-- `module.exports`: method check, body parsing, `const answers =
body.answers || {}` (which raises a `TypeError` when the body parsed to
`null` — this happens before the `try`/`catch`, so the exception
escapes), credential resolution, then either the deterministic fallback
or the upstream path. -/
def handler (w : World) (req : Request) : Outcome :=
  if req.method != "POST" then
    .responded 405 (some "POST") methodNotAllowedBody
  else if isNull (bodyOf w req) then .threw
  else
    match getApiKey w.env w.fileSys with
    | none => fallbackPath (answersOf (bodyOf w req))
    | some _ => upstreamPath w

/-! ## Claim-side (specification-worded) definitions

These definitions follow the wording of the specification, to be
compared with the ones translated from the source. -/

/-- Spec wording: "the normalized destinations sequence (a lone string
becomes a one-element sequence, an absent field becomes the empty
sequence)".  Shapes outside the spec's normalization are not covered by
the claim; the claim theorems restrict to the covered shapes. -/
def specNormalizedDests (answers : JsValue) : List JsValue :=
  match jsGetField answers "destinations" with
  | some (.str s) => [.str s]
  | some (.arr xs) => xs
  | _ => []

/-- Spec wording: "the relocationType string (defaulting to the empty
string)". -/
def specRelocString (answers : JsValue) : String :=
  match jsGetField answers "relocationType" with
  | some (.str s) => s
  | _ => ""

/-- Spec wording of the fallback decision rule, first match wins:
`"panama"` among the destinations → Panama; else `"belize"` → Belize;
else relocation-type contains the substring `"work"` → Panama; else
Costa Rica. -/
def specPick (answers : JsValue) : String :=
  if listHasStr (specNormalizedDests answers) "panama" then "Panama"
  else if listHasStr (specNormalizedDests answers) "belize" then "Belize"
  else if jsStrIncludes (specRelocString answers) "work" then "Panama"
  else "Costa Rica"

/-- Spec wording of the credential resolution order: the five candidate
values, in order — the two environment variables (trimmed, non-empty),
then the trimmed contents of the file named by `OPEN_AI_KEY_FILE`, of
`./OPEN_AI_KEY`, and of `/run/secrets/OPEN_AI_KEY`. -/
def specKeyCandidates (env : Env) (fs : FileSys) : List (Option String) :=
  [ env.OPENAI_API_KEY.bind (fun s => if jsTrim s == "" then none else some (jsTrim s))
  , env.OPEN_AI_KEY.bind (fun s => if jsTrim s == "" then none else some (jsTrim s))
  , env.OPEN_AI_KEY_FILE.bind (fun p => tryReadFileSync fs p)
  , tryReadFileSync fs "./OPEN_AI_KEY"
  , tryReadFileSync fs "/run/secrets/OPEN_AI_KEY" ]

/-! ## Shape predicates and observation helpers used in claim statements -/

/-- The `destinations` field has one of the shapes the spec's
normalization covers: absent, a string, or a sequence. -/
def destsShapeOk (answers : JsValue) : Bool :=
  match jsGetField answers "destinations" with
  | none => true
  | some (.str _) => true
  | some (.arr _) => true
  | some _ => false

/-- The `relocationType` field is absent or a string. -/
def relocShapeOk (answers : JsValue) : Bool :=
  match jsGetField answers "relocationType" with
  | none => true
  | some (.str _) => true
  | some _ => false

/-- A value that `x || ''` turns into a string: a string, or any falsy
value. -/
def strOrFalsy : JsValue → Bool
  | .str _ => true
  | v => !truthy v

/-- The upstream response body parsed to a non-null value whose
`choices?.[0]?.message?.content` chain is absent, a string, or falsy —
the shapes on which the assistant value is a string. -/
def contentShapeOk (j : JsValue) : Bool :=
  !(isNull j) &&
    (match contentChain j with
     | none => true
     | some v => strOrFalsy v)

/-- The assistant content as a string: the content of the chain when it
is a string, the empty string otherwise (absent or falsy content). -/
def assistantStringOf (j : JsValue) : String :=
  match contentChain j with
  | some (.str t) => t
  | _ => ""

/-- Number of entries of the `cities` field, when it is an array. -/
def citiesCountOf (v : JsValue) : Option Nat :=
  match jsGetField v "cities" with
  | some (.arr xs) => some xs.length
  | _ => none

/-- The outcome is a single response whose status is one of 200, 405,
502, 500 (in particular, no exception escaped). -/
def statusInContract : Outcome → Prop
  | .responded st _ _ => st = 200 ∨ st = 405 ∨ st = 502 ∨ st = 500
  | .threw => False

/-! ## Concrete example environments for evaluation -/

/-- A file system with no readable files. -/
def noFs : FileSys := ⟨fun _ => none⟩

/-- No credential-related environment variable is set. -/
def emptyEnv : Env := ⟨none, none, none⟩

/-- An environment whose primary variable holds a key. -/
def keyEnv : Env := ⟨some "sk-test", none, none⟩

/-- A `JSON.parse` oracle that fails on every input. -/
def pjNone : JsValue → Option JsValue := fun _ => none

/-- A `JSON.parse` oracle that parses the text `null` (to JSON `null`)
and nothing else — agreeing with `JSON.parse` on that input. -/
def pjNullOracle : JsValue → Option JsValue := fun v =>
  match v with
  | .str s => if s == "null" then some .null else none
  | _ => none

/-- A world with no credential anywhere and an inert parse oracle. -/
def wNoCred : World := ⟨emptyEnv, noFs, pjNone, .response 200 "", "syntax error"⟩

/-- An empty POST request. -/
def reqEmptyPost : Request := ⟨"POST", none, .data ""⟩

/-- A POST request whose transport-parsed body carries a numeric
`relocationType`. -/
def reqNumReloc : Request :=
  ⟨"POST", some (.obj [("answers", .obj [("relocationType", .num 5)])]), .data ""⟩

/-- A POST request whose raw body is the text `null`. -/
def reqNullBody : Request := ⟨"POST", none, .data "null"⟩

/-- A world that parses raw `null` bodies, with no credential. -/
def wNullBody : World := ⟨emptyEnv, noFs, pjNullOracle, .response 200 "", "syntax error"⟩

/-- A chat-completion response body whose sole choice carries the given
message content. -/
def choicesContent (content : JsValue) : JsValue :=
  .obj [("choices", .arr [.obj [("message", .obj [("content", content)])]])]

/-- Upstream body for the cities counterexample: the model answered with
an object whose `cities` is empty. -/
def pjUp3 : JsValue → Option JsValue := fun v =>
  match v with
  | .str s =>
    if s == "UP3" then some (choicesContent (.str "\x7b\"cities\":[]\x7d"))
    else if s == "\x7b\"cities\":[]\x7d" then some (.obj [("cities", .arr [])])
    else none
  | _ => none

/-- World with a credential and an upstream 200 whose content is a JSON
object with an empty `cities` array. -/
def wUp3 : World := ⟨keyEnv, noFs, pjUp3, .response 200 "UP3", "syntax error"⟩

/-- Upstream body for the content-recovery witness: prose followed by a
JSON object. -/
def pjUp5 : JsValue → Option JsValue := fun v =>
  match v with
  | .str s =>
    if s == "UP5" then some (choicesContent (.str "here: \x7b\"a\":1\x7d"))
    else if s == "\x7b\"a\":1\x7d" then some (.obj [("a", .num 1)])
    else none
  | _ => none

/-- The parsed upstream body of `pjUp5` at `"UP5"`. -/
def jUp5 : JsValue := choicesContent (.str "here: \x7b\"a\":1\x7d")

/-- World with a credential and an upstream 200 for the recovery witness. -/
def wUp5 : World := ⟨keyEnv, noFs, pjUp5, .response 200 "UP5", "syntax error"⟩

/-- World with a credential and a rate-limited upstream (HTTP 429). -/
def wUp6 : World := ⟨keyEnv, noFs, pjNone, .response 429 "Too Many Requests", "syntax error"⟩

/-- Concrete answers for the decision-rule witness. -/
def ansSpecW : JsValue :=
  .obj [("destinations", .str "belize"), ("relocationType", .str "work")]

/-! ## Helper lemmas -/

theorem envCandidate_eq_spec (v : Option String) :
    envCandidate v = v.bind (fun s => if jsTrim s == "" then none else some (jsTrim s)) := by
  cases v with
  | none => rfl
  | some s =>
    by_cases h : s = ""
    · subst h; rfl
    · by_cases ht : jsTrim s = "" <;>
        simp [envCandidate, h, ht, String.isEmpty_iff]

/-- C9: For every request whose method is not POST, the handler responds
405 with an `Allow: POST` header and the fixed error body, independently
of everything else in the world (no body parsing, credential resolution,
or upstream call can influence the outcome). -/
theorem non_post_method_gets_405 (w : World) (req : Request)
    (hm : req.method ≠ "POST") :
    handler w req = .responded 405 (some "POST") methodNotAllowedBody ∧
      ∀ w' : World, handler w' req = handler w req := by
  have hb : (req.method != "POST") = true := by
    simpa [bne] using hm
  constructor
  · unfold handler; rw [hb]; rfl
  · intro w'; unfold handler; rw [hb]; rfl

/-- C9 witness: a GET request is rejected with 405 regardless of the
rest of the world. -/
theorem non_post_method_gets_405_witness :
    handler wNoCred ⟨"GET", none, .data ""⟩ =
        .responded 405 (some "POST") methodNotAllowedBody ∧
      ∀ w' : World, handler w' ⟨"GET", none, .data ""⟩ =
        handler wNoCred ⟨"GET", none, .data ""⟩ :=
  non_post_method_gets_405 wNoCred ⟨"GET", none, .data ""⟩ (by decide)

/-- C8: When the transport supplies no usable pre-parsed body and the
raw text is empty or fails to parse, body parsing yields the empty
object (and the `answers` extracted from an empty body is the empty
object); no error response can arise from this step. -/
theorem unparsable_body_becomes_empty (pj : JsValue → Option JsValue)
    (preBody : Option JsValue) (stream : StreamResult)
    (hpre : preBodyUsable preBody = false)
    (hraw : stream = .data "" ∨ ∃ d, stream = .data d ∧ pj (.str d) = none) :
    readJsonBody pj preBody stream = .obj [] ∧
      answersOf (.obj []) = .obj [] := by
  refine ⟨?_, rfl⟩
  unfold readJsonBody
  rw [hpre]
  rcases hraw with h | ⟨d, hd, hparse⟩
  · subst h; rfl
  · subst hd
    by_cases hde : d = ""
    · subst hde; rfl
    · simp [String.isEmpty_iff, hde, hparse]

/-- C8 witness: a body of non-JSON text with a failing parse yields the
empty object. -/
theorem unparsable_body_becomes_empty_witness :
    readJsonBody pjNone none (.data "not json") = .obj [] ∧
      answersOf (.obj []) = .obj [] :=
  unparsable_body_becomes_empty pjNone none (.data "not json") (by decide)
    (Or.inr ⟨"not json", rfl, rfl⟩)

theorem listHasStr_destsOf (answers : JsValue) (p : String)
    (hd : destsShapeOk answers = true) (hp : p ≠ "") :
    listHasStr (destsOf answers) p = listHasStr (specNormalizedDests answers) p := by
  unfold destsShapeOk at hd
  unfold destsOf specNormalizedDests
  cases hv : jsGetField answers "destinations" with
  | none => rfl
  | some v =>
    rw [hv] at hd
    cases v with
    | null => simp at hd
    | bool b => simp at hd
    | num n => simp at hd
    | obj fs => simp at hd
    | arr xs => rfl
    | str s =>
      by_cases h : s = ""
      · subst h
        have h0 : truthy (.str "") = false := rfl
        have h1 : ("" == p) = false :=
          beq_eq_false_iff_ne.mpr (fun hh => hp hh.symm)
        simp [h0, listHasStr, isStrEq, h1]
      · have hq : s.isEmpty = false := by
          rw [Bool.eq_false_iff]
          exact fun hq => h ((String.isEmpty_iff s).mp hq)
        have ht : truthy (.str s) = true := by simp [truthy, hq]
        simp [ht]

theorem relocWork_eq_spec (answers : JsValue) (hr : relocShapeOk answers = true) :
    relocWork (relocationOf answers) = some (jsStrIncludes (specRelocString answers) "work") := by
  unfold relocShapeOk at hr
  unfold relocationOf specRelocString
  cases hv : jsGetField answers "relocationType" with
  | none => rfl
  | some v =>
    rw [hv] at hr
    cases v with
    | null => simp at hr
    | bool b => simp at hr
    | num n => simp at hr
    | arr xs => simp at hr
    | obj fs => simp at hr
    | str s =>
      by_cases h : s = ""
      · subst h; rfl
      · have hq : s.isEmpty = false := by
          rw [Bool.eq_false_iff]
          exact fun hq => h ((String.isEmpty_iff s).mp hq)
        have ht : truthy (.str s) = true := by simp [truthy, hq]
        simp [relocWork, ht]

/-- C1: In the no-credential fallback path, for every answers object
whose fields have the shapes the specification's normalization covers
(`destinations` absent, a string, or a sequence; `relocationType` absent
or a string), the picked country follows the spec's first-match-wins
rule: `"panama"` among the normalized destinations → Panama, else
`"belize"` → Belize, else a relocation type containing the substring
`"work"` → Panama, else Costa Rica. -/
theorem fallback_pick_matches_spec_rule (answers : JsValue)
    (hd : destsShapeOk answers = true) (hr : relocShapeOk answers = true) :
    pickOf answers = some (specPick answers) := by
  unfold pickOf specPick
  rw [listHasStr_destsOf answers "panama" hd (by decide),
    listHasStr_destsOf answers "belize" hd (by decide),
    relocWork_eq_spec answers hr]
  by_cases h1 : listHasStr (specNormalizedDests answers) "panama" = true
  · simp [h1]
  · by_cases h2 : listHasStr (specNormalizedDests answers) "belize" = true
    · simp [h1, h2]
    · cases hw : jsStrIncludes (specRelocString answers) "work" <;>
        simp [h1, h2, hw]

/-- C1 witness: destinations `"belize"` (a lone string) with relocation
type `"work"` picks Belize, as the spec rule prescribes. -/
theorem fallback_pick_matches_spec_rule_witness :
    pickOf ansSpecW = some (specPick ansSpecW) ∧ specPick ansSpecW = "Belize" :=
  ⟨fallback_pick_matches_spec_rule ansSpecW (by decide) (by decide), by decide⟩

theorem fileEnvCandidate_eq_spec (env : Env) (fs : FileSys)
    (hfs : fs.read "" = none) :
    fileEnvCandidate env fs =
      env.OPEN_AI_KEY_FILE.bind (fun p => tryReadFileSync fs p) := by
  unfold fileEnvCandidate
  cases hv : env.OPEN_AI_KEY_FILE with
  | none => rfl
  | some p =>
    by_cases hp : p = ""
    · subst hp; simp [tryReadFileSync, hfs]
    · have hq : p.isEmpty = false := by
        rw [Bool.eq_false_iff]
        exact fun hq => hp ((String.isEmpty_iff p).mp hq)
      simp [hq]

/-- C7: The credential resolver returns the first non-empty trimmed
value among the five candidates in the spec's exact order — the
`OPENAI_API_KEY` variable, the `OPEN_AI_KEY` variable, the file named by
`OPEN_AI_KEY_FILE`, `./OPEN_AI_KEY`, `/run/secrets/OPEN_AI_KEY` — and
`none` (not found) exactly when all five yield nothing.  File-read
failures are skipped, and the resolver is a total function (no step can
throw).  The hypothesis `fs.read "" = none` says the empty path names no
file. -/
theorem getApiKey_follows_spec_order (env : Env) (fs : FileSys)
    (hfs : fs.read "" = none) :
    getApiKey env fs = (specKeyCandidates env fs).findSome? id ∧
      (getApiKey env fs = none ↔ ∀ c ∈ specKeyCandidates env fs, c = none) := by
  have hspec : specKeyCandidates env fs =
      [envCandidate env.OPENAI_API_KEY, envCandidate env.OPEN_AI_KEY,
        fileEnvCandidate env fs, tryReadFileSync fs "./OPEN_AI_KEY",
        tryReadFileSync fs "/run/secrets/OPEN_AI_KEY"] := by
    unfold specKeyCandidates
    rw [← envCandidate_eq_spec env.OPENAI_API_KEY,
      ← envCandidate_eq_spec env.OPEN_AI_KEY,
      ← fileEnvCandidate_eq_spec env fs hfs]
  rw [hspec]
  unfold getApiKey
  cases h1 : envCandidate env.OPENAI_API_KEY with
  | some k => simp [List.findSome?, h1]
  | none =>
    cases h2 : envCandidate env.OPEN_AI_KEY with
    | some k => simp [List.findSome?, h1, h2]
    | none =>
      cases h3 : fileEnvCandidate env fs with
      | some k => simp [List.findSome?, h1, h2, h3]
      | none =>
        cases h4 : tryReadFileSync fs "./OPEN_AI_KEY" with
        | some k => simp [List.findSome?, h1, h2, h3, h4]
        | none =>
          cases h5 : tryReadFileSync fs "/run/secrets/OPEN_AI_KEY" with
          | some k => simp [List.findSome?, h1, h2, h3, h4, h5]
          | none => simp [List.findSome?, h1, h2, h3, h4, h5]

/-- C7 witness: a primary environment variable holding a padded token
resolves to its trimmed value, matching the spec chain. -/
theorem getApiKey_follows_spec_order_witness :
    getApiKey ⟨some "  sk-1  ", none, none⟩ noFs =
        (specKeyCandidates ⟨some "  sk-1  ", none, none⟩ noFs).findSome? id ∧
      (getApiKey ⟨some "  sk-1  ", none, none⟩ noFs = none ↔
        ∀ c ∈ specKeyCandidates ⟨some "  sk-1  ", none, none⟩ noFs, c = none) :=
  getApiKey_follows_spec_order ⟨some "  sk-1  ", none, none⟩ noFs rfl

/-- C10: the fallback decision rule matches exactly and case-sensitively:
`"Panama"`/`"PANAMA"` among the destinations select nothing (falling
through to the next rule or the default), and a relocation type of
`"Work"` does not contain the lowercase substring `"work"`; a lowercase
occurrence does fire the rule. -/
theorem fallback_rule_is_case_sensitive :
    pickOf (.obj [("destinations", .arr [.str "Panama", .str "PANAMA"]),
        ("relocationType", .str "Work")]) = some "Costa Rica" ∧
      pickOf (.obj [("destinations", .str "Panama")]) = some "Costa Rica" ∧
      pickOf (.obj [("destinations", .arr [.str "PANAMA", .str "belize"]),
        ("relocationType", .str "Work")]) = some "Belize" ∧
      pickOf (.obj [("destinations", .arr [.str "Panama"]),
        ("relocationType", .str "work abroad")]) = some "Panama" :=
  ⟨rfl, rfl, rfl, rfl⟩

theorem handler_post (w : World) (req : Request) (hm : req.method = "POST")
    (hb : isNull (bodyOf w req) = false) :
    handler w req =
      match getApiKey w.env w.fileSys with
      | none => fallbackPath (answersOf (bodyOf w req))
      | some _ => upstreamPath w := by
  unfold handler
  have h1 : (req.method != "POST") = false := by simp [bne, hm]
  rw [h1, hb]
  simp

theorem handler_ignores_upstream_without_key (w : World) (req : Request)
    (up : Upstream) (hk : getApiKey w.env w.fileSys = none) :
    handler ⟨w.env, w.fileSys, w.parseJson, up, w.engineErrMsg⟩ req = handler w req := by
  unfold handler bodyOf
  simp [hk]

theorem pickOf_isSome_of_relocWork (answers : JsValue)
    (hr : (relocWork (relocationOf answers)).isSome = true) :
    ∃ p, pickOf answers = some p := by
  unfold pickOf
  by_cases h1 : listHasStr (destsOf answers) "panama" = true
  · exact ⟨"Panama", by simp [h1]⟩
  · by_cases h2 : listHasStr (destsOf answers) "belize" = true
    · exact ⟨"Belize", by simp [h1, h2]⟩
    · obtain ⟨b, hb⟩ := Option.isSome_iff_exists.mp hr
      cases b
      · exact ⟨"Costa Rica", by simp [h1, h2, hb]⟩
      · exact ⟨"Panama", by simp [h1, h2, hb]⟩

theorem recoverFromContent_is_200 (pj : JsValue → Option JsValue) (a : JsValue) :
    ∃ b, recoverFromContent pj a = .responded 200 none b := by
  unfold recoverFromContent
  cases a with
  | str s =>
    cases hv : pj (.str (sliceFromBrace s)) with
    | none => exact ⟨.obj [("text", .str s)], by simp [hv]⟩
    | some parsed => exact ⟨parsed, by simp [hv]⟩
  | arr xs =>
    cases hv : pj (sliceArrFromBrace xs) with
    | none => exact ⟨.obj [("text", .arr xs)], by simp [hv]⟩
    | some parsed => exact ⟨parsed, by simp [hv]⟩
  | null => exact ⟨_, rfl⟩
  | bool b => exact ⟨_, rfl⟩
  | num n => exact ⟨_, rfl⟩
  | obj fs => exact ⟨_, rfl⟩

theorem upstreamPath_in_contract (w : World) :
    statusInContract (upstreamPath w) := by
  unfold upstreamPath
  cases hu : w.upstream with
  | noCapability m => simp [statusInContract]
  | networkFailure m => simp [statusInContract]
  | response st txt =>
    by_cases hok : fetchOk st = true
    · simp only [hok, Bool.not_true, Bool.false_eq_true, if_false]
      cases hj : w.parseJson (.str txt) with
      | none => simp [statusInContract]
      | some j =>
        by_cases hn : isNull j = true
        · simp [hn, statusInContract]
        · rw [Bool.not_eq_true] at hn
          simp only [hn, Bool.false_eq_true, if_false]
          obtain ⟨b, hb⟩ := recoverFromContent_is_200 w.parseJson (assistantOf j)
          rw [hb]
          simp [statusInContract]
    · rw [Bool.not_eq_true] at hok
      simp [hok, statusInContract]

theorem assistantOf_eq_str (j : JsValue) (h : contentShapeOk j = true) :
    assistantOf j = .str (assistantStringOf j) := by
  unfold contentShapeOk at h
  unfold assistantOf assistantStringOf
  cases hc : contentChain j with
  | none => rfl
  | some v =>
    rw [hc] at h
    simp only [Bool.and_eq_true, Bool.not_eq_true'] at h
    have hv : strOrFalsy v = true := h.2
    cases v with
    | str s =>
      by_cases hS : s = ""
      · subst hS; rfl
      · have hq : s.isEmpty = false := by
          rw [Bool.eq_false_iff]
          exact fun hq => hS ((String.isEmpty_iff s).mp hq)
        have ht : truthy (.str s) = true := by simp [truthy, hq]
        simp [ht]
    | null => rfl
    | bool b =>
      cases b
      · rfl
      · simp [strOrFalsy, truthy] at hv
    | num n =>
      have hz : truthy (.num n) = false := by
        unfold strOrFalsy at hv
        simpa [truthy] using hv
      simp [hz]
    | arr xs => simp [strOrFalsy, truthy] at hv
    | obj fs => simp [strOrFalsy, truthy] at hv

/-- C2 (amended): For every POST request whose parsed body is not JSON
`null` and whose relocation-type value does not make the `includes` call
throw, whenever no credential is resolved the handler responds 200 with
the fallback object for the picked country — score 75, the two
fixed-template reasons, the three-city table — and the upstream outcome
cannot influence the response (no upstream call is made). -/
theorem no_credential_fallback_response (w : World) (req : Request)
    (hm : req.method = "POST")
    (hk : getApiKey w.env w.fileSys = none)
    (hb : isNull (bodyOf w req) = false)
    (hr : (relocWork (relocationOf (answersOf (bodyOf w req)))).isSome = true) :
    ∃ pick, pickOf (answersOf (bodyOf w req)) = some pick ∧
      handler w req = .responded 200 none (fallbackBody pick) ∧
      jsGetField (fallbackBody pick) "score" = some (.num 75) ∧
      ∀ up : Upstream,
        handler ⟨w.env, w.fileSys, w.parseJson, up, w.engineErrMsg⟩ req =
          handler w req := by
  obtain ⟨pick, hpick⟩ := pickOf_isSome_of_relocWork _ hr
  refine ⟨pick, hpick, ?_, rfl,
    fun up => handler_ignores_upstream_without_key w req up hk⟩
  rw [handler_post w req hm hb, hk]
  simp [fallbackPath, hpick]

/-- C2 witness: an empty POST body with no credential anywhere yields
the Costa Rica fallback response. -/
theorem no_credential_fallback_response_witness :
    ∃ pick, pickOf (answersOf (bodyOf wNoCred reqEmptyPost)) = some pick ∧
      handler wNoCred reqEmptyPost = .responded 200 none (fallbackBody pick) ∧
      jsGetField (fallbackBody pick) "score" = some (.num 75) ∧
      ∀ up : Upstream,
        handler ⟨wNoCred.env, wNoCred.fileSys, wNoCred.parseJson, up,
          wNoCred.engineErrMsg⟩ reqEmptyPost = handler wNoCred reqEmptyPost :=
  no_credential_fallback_response wNoCred reqEmptyPost rfl rfl rfl rfl

/-- C2 counterexample: with no credential resolvable, a POST whose
answers carry a numeric `relocationType` makes the handler throw (the
`TypeError` from `relocation.includes` escapes, before the `try` block),
so no 200 response is sent — the claim as stated is false. -/
theorem no_credential_fallback_response_cex :
    getApiKey wNoCred.env wNoCred.fileSys = none ∧
      handler wNoCred reqNumReloc = Outcome.threw :=
  ⟨rfl, rfl⟩

/-- C3 (amended): every 200 response produced by the fallback path has a
`cities` field of exactly 3 entries; the upstream-success path forwards
the upstream content verbatim, so no such bound holds there. -/
theorem fallback_cities_exactly_three (w : World) (req : Request)
    (hm : req.method = "POST")
    (hk : getApiKey w.env w.fileSys = none)
    (hb : isNull (bodyOf w req) = false)
    (hr : (relocWork (relocationOf (answersOf (bodyOf w req)))).isSome = true) :
    ∃ pick, handler w req = .responded 200 none (fallbackBody pick) ∧
      citiesCountOf (fallbackBody pick) = some 3 := by
  obtain ⟨pick, hpick⟩ := pickOf_isSome_of_relocWork _ hr
  refine ⟨pick, ?_, rfl⟩
  rw [handler_post w req hm hb, hk]
  simp [fallbackPath, hpick]

/-- C3 witness: the fallback response for an empty POST body has exactly
three cities. -/
theorem fallback_cities_exactly_three_witness :
    ∃ pick, handler wNoCred reqEmptyPost = .responded 200 none (fallbackBody pick) ∧
      citiesCountOf (fallbackBody pick) = some 3 :=
  fallback_cities_exactly_three wNoCred reqEmptyPost rfl rfl rfl rfl

/-- C3 counterexample: with a credential present and an upstream 200
whose assistant content is the JSON object `{"cities":[]}`, the handler
responds 200 with that object forwarded verbatim — its `cities` has 0
entries, not 3, so the claim as stated is false. -/
theorem upstream_cities_not_three_cex :
    handler wUp3 reqEmptyPost =
        .responded 200 none (.obj [("cities", JsValue.arr [])]) ∧
      citiesCountOf (.obj [("cities", JsValue.arr [])]) = some 0 :=
  ⟨rfl, rfl⟩

/-- C6: On the upstream path, a non-ok upstream HTTP status makes the
handler respond 502 with the fixed error body carrying the upstream
status and the upstream body text; content parsing is never reached. -/
theorem upstream_error_responds_502 (w : World) (req : Request)
    (st : Nat) (txt : String)
    (hm : req.method = "POST")
    (hb : isNull (bodyOf w req) = false)
    (hk : (getApiKey w.env w.fileSys).isSome = true)
    (hup : w.upstream = .response st txt)
    (hbad : fetchOk st = false) :
    handler w req = .responded 502 none (.obj [
      ("error", .str "OpenAI API error"),
      ("status", .num st),
      ("body", .str txt)]) := by
  rw [handler_post w req hm hb]
  obtain ⟨k, hkk⟩ := Option.isSome_iff_exists.mp hk
  rw [hkk]
  simp only [upstreamPath, hup]
  simp [hbad]

/-- C6 witness: an upstream 429 is surfaced as a 502 carrying status 429
and the raw upstream text. -/
theorem upstream_error_responds_502_witness :
    handler wUp6 reqEmptyPost = .responded 502 none (.obj [
      ("error", .str "OpenAI API error"),
      ("status", .num 429),
      ("body", .str "Too Many Requests")]) :=
  upstream_error_responds_502 wUp6 reqEmptyPost 429 "Too Many Requests"
    rfl rfl rfl rfl rfl

/-- C5: On the upstream path with an ok (2xx) upstream response whose
body parses to `j`, and with the content chain absent, a string, or
falsy, the handler takes the assistant content string, slices from the
first brace (or keeps the whole content when there is none), and parses
that: on success it responds 200 with the parsed value forwarded
verbatim, on failure it responds 200 with `{text: <assistant content>}`;
an absent content chain defaults the assistant string to empty. -/
theorem upstream_content_recovery (w : World) (req : Request)
    (st : Nat) (txt : String) (j : JsValue)
    (hm : req.method = "POST")
    (hb : isNull (bodyOf w req) = false)
    (hk : (getApiKey w.env w.fileSys).isSome = true)
    (hup : w.upstream = .response st txt)
    (hok : fetchOk st = true)
    (hj : w.parseJson (.str txt) = some j)
    (hshape : contentShapeOk j = true) :
    (∀ v, w.parseJson (.str (sliceFromBrace (assistantStringOf j))) = some v →
        handler w req = .responded 200 none v) ∧
      (w.parseJson (.str (sliceFromBrace (assistantStringOf j))) = none →
        handler w req = .responded 200 none
          (.obj [("text", .str (assistantStringOf j))])) ∧
      (contentChain j = none → assistantStringOf j = "") := by
  have hnn : isNull j = false := by
    unfold contentShapeOk at hshape
    simp only [Bool.and_eq_true, Bool.not_eq_true'] at hshape
    exact hshape.1
  have h1 : handler w req = upstreamPath w := by
    obtain ⟨k, hkk⟩ := Option.isSome_iff_exists.mp hk
    rw [handler_post w req hm hb, hkk]
  have h2 : upstreamPath w =
      recoverFromContent w.parseJson (.str (assistantStringOf j)) := by
    unfold upstreamPath
    rw [hup]
    simp [hok, hj, hnn, assistantOf_eq_str j hshape]
  have hmain := h1.trans h2
  refine ⟨?_, ?_, ?_⟩
  · intro v hv
    rw [hmain]
    unfold recoverFromContent
    simp [hv]
  · intro hv
    rw [hmain]
    unfold recoverFromContent
    simp [hv]
  · intro hc
    unfold assistantStringOf
    rw [hc]

/-- C5 witness: assistant content `here: {"a":1}` is sliced at the brace
and parsed, and the parsed object is forwarded verbatim with status
200. -/
theorem upstream_content_recovery_witness :
    handler wUp5 reqEmptyPost = .responded 200 none (.obj [("a", .num 1)]) :=
  (upstream_content_recovery wUp5 reqEmptyPost 200 "UP5" jUp5
    rfl rfl rfl rfl rfl rfl rfl).1 (.obj [("a", .num 1)]) rfl

/-- C4 (amended): For every request whose parsed body is not JSON `null`
and which, when no credential resolves, carries a relocation-type value
that does not make `includes` throw, the handler sends exactly one
response, with status 200, 405, 502 or 500, and never lets an exception
escape. -/
theorem handler_single_response_status (w : World) (req : Request)
    (hb : isNull (bodyOf w req) = false)
    (hr : getApiKey w.env w.fileSys = none →
      (relocWork (relocationOf (answersOf (bodyOf w req)))).isSome = true) :
    statusInContract (handler w req) := by
  by_cases hm : req.method = "POST"
  · rw [handler_post w req hm hb]
    cases hk : getApiKey w.env w.fileSys with
    | none =>
      obtain ⟨pick, hpick⟩ := pickOf_isSome_of_relocWork _ (hr hk)
      simp [fallbackPath, hpick, statusInContract]
    | some k => exact upstreamPath_in_contract w
  · have hq : (req.method != "POST") = true := by simpa [bne] using hm
    unfold handler
    rw [hq]
    simp [statusInContract]

/-- C4 witness: an empty POST request with no credential gets exactly
one in-contract response. -/
theorem handler_single_response_status_witness :
    statusInContract (handler wNoCred reqEmptyPost) :=
  handler_single_response_status wNoCred reqEmptyPost rfl (fun _ => rfl)

/-- C4 counterexample: a POST whose raw body is the text `null` parses
to JSON `null`, and `body.answers` then throws a `TypeError` outside the
`try`/`catch`: the handler terminates without responding, so the claim
as stated is false. -/
theorem handler_single_response_status_cex :
    handler wNullBody reqNullBody = Outcome.threw ∧
      ¬ statusInContract Outcome.threw :=
  ⟨rfl, fun h => h⟩

end Recommend
